import Mathlib


/-!
Shallow embedding of the leveling subsystem of `src/commands/Leveling/leveling.py`
(class `LevelingCog`): the level curve, the XP ledger and grant engine, role
reconciliation, the XP boost lookup, and the message handler.

Modelling conventions:
* Python integers are `Int`; the loop counter of `_recalculate_level`, which
  starts at 0 and is only incremented, is a `Nat`.
* The float boost multipliers are modelled as `ℚ`; the only operations the
  source performs on them are comparisons and `max`, which are exact.
* The SQLite `users` table is an association list keyed by
  `(guild_id, user_id)`; `INSERT OR REPLACE` is an upsert on that list.
  The connection can be `absent` (`self.conn is None`), `failing` (every
  query raises `sqlite3.Error`, which the source catches) or `ok`.
* The `while` loop of `_recalculate_level` is a fuel-indexed recursion given
  provably sufficient fuel (`recalcAux_fuel_irrelevant` shows the result is
  the loop's).
-/
namespace Leveling

/-- `_calculate_xp_for_level` (leveling.py lines 174–178): XP required to
advance from `level` to `level + 1`: `5*level**2 + 50*level + 100`, with
negative levels clamped to 0. -/
def _calculate_xp_for_level (level : Int) : Int :=
  if level < 0 then 0 else 5 * level ^ 2 + 50 * level + 100

/-- The `while` loop of `_recalculate_level` (leveling.py lines 199–209) as a
fuel-indexed recursion: state is `(level, xp_cumulative)`; one step adds
`_calculate_xp_for_level level` to the accumulator while it stays within
`total`.  The fuel only bounds the number of iterations. -/
def recalcAux (total : Int) : Nat → Nat → Int → Nat × Int
  | 0, level, cum => (level, total - cum)
  | fuel + 1, level, cum =>
    if cum + _calculate_xp_for_level (level : Int) ≤ total then
      recalcAux total fuel (level + 1) (cum + _calculate_xp_for_level (level : Int))
    else (level, total - cum)

/-- `_recalculate_level` (leveling.py lines 199–209): decompose a total XP
amount into `(level, xp_in_level)` by greedy accumulation of the level
curve.  `total.toNat + 1` iterations always suffice because every loop step
adds at least 100 to the accumulator. -/
def _recalculate_level (total : Int) : Nat × Int :=
  recalcAux total (total.toNat + 1) 0 0

/-- Cumulative XP needed to reach `level` starting from level 0: the sum of
`_calculate_xp_for_level i` for `i < level`. -/
def cumulativeXp : Nat → Int
  | 0 => 0
  | n + 1 => cumulativeXp n + _calculate_xp_for_level (n : Int)

/-- The statement of claim C1 at a given `total`: `_recalculate_level total`
decomposes `total` as the sum of the level curve below the returned level
plus the returned remainder, the remainder is a nonnegative amount strictly
below the requirement of the returned level, the accumulated prefix is the
literal sum `∑ i < level, xpRequiredForLevel i`, and the decomposition is
unique. -/
def LevelDecompCorrect (total : Int) : Prop :=
  cumulativeXp (_recalculate_level total).1 + (_recalculate_level total).2 = total ∧
  0 ≤ (_recalculate_level total).2 ∧
  (_recalculate_level total).2 < _calculate_xp_for_level ((_recalculate_level total).1 : Int) ∧
  cumulativeXp (_recalculate_level total).1 =
    ∑ i ∈ Finset.range (_recalculate_level total).1, _calculate_xp_for_level (i : Int) ∧
  ∀ (L : Nat) (r : Int),
    cumulativeXp L + r = total → 0 ≤ r → r < _calculate_xp_for_level (L : Int) →
    L = (_recalculate_level total).1 ∧ r = (_recalculate_level total).2

/-- The statement of claim C10 at a given `total`: every level-curve value at a
nonnegative level is at least 100 (so each loop iteration grows the
accumulator by at least 100), and any fuel of at least `total.toNat + 1`
yields the same result as `_recalculate_level total` — i.e. the greedy loop
exits after finitely many iterations. -/
def RecalcTerminates (total : Int) : Prop :=
  (∀ level : Int, 0 ≤ level → 100 ≤ _calculate_xp_for_level level) ∧
  ∀ fuel : Nat, total.toNat + 1 ≤ fuel → recalcAux total fuel 0 0 = _recalculate_level total

/-- Association-list lookup, first match wins; models both a SQL `SELECT` by
primary key and a Python `dict.get`. -/
def lookupKV {κ α : Type} [DecidableEq κ] : List (κ × α) → κ → Option α
  | [], _ => none
  | p :: rest, k => if p.1 = k then some p.2 else lookupKV rest k

/-- Association-list upsert: models SQLite `INSERT OR REPLACE` keyed by the
primary key, and a Python `dict` item assignment. -/
def upsertKV {κ α : Type} [DecidableEq κ] (l : List (κ × α)) (k : κ) (v : α) :
    List (κ × α) :=
  l.filter (fun p => decide (p.1 ≠ k)) ++ [(k, v)]

/-- The SQLite `users` table (leveling.py lines 109–118): one row per
`(guild_id, user_id)` carrying `(level, xp, total_xp)`. -/
abbrev Rows := List ((Int × Int) × (Int × Int × Int))

/-- The cog's database connection: `absent` models `self.conn is None`
(initialization failed), `failing` a connection whose queries raise
`sqlite3.Error` (always caught by the source), `ok` a working connection
holding the current table. -/
inductive DBConn where
  | absent : DBConn
  | failing (rows : Rows) : DBConn
  | ok (rows : Rows) : DBConn
deriving DecidableEq

/-- `_get_user_data` (leveling.py lines 132–156): returns the stored
`(level, xp, total_xp)` for the user together with the possibly-updated
table — on a missing row it executes
`INSERT OR REPLACE INTO users ... VALUES (?, ?, 0, 0, 0)` and returns
`(0, 0, 0)`; with no connection, or when the query raises, it returns
`(0, 0, 0)` and leaves storage untouched. -/
def _get_user_data : DBConn → Int → Int → (Int × Int × Int) × DBConn
  | DBConn.absent, _, _ => ((0, 0, 0), DBConn.absent)
  | DBConn.failing rows, _, _ => ((0, 0, 0), DBConn.failing rows)
  | DBConn.ok rows, guild_id, user_id =>
    match lookupKV rows (guild_id, user_id) with
    | some v => (v, DBConn.ok rows)
    | none => ((0, 0, 0), DBConn.ok (upsertKV rows (guild_id, user_id) (0, 0, 0)))

/-- `_update_user_xp` (leveling.py lines 158–171): upsert of the user's row;
a missing connection or a raised query error leaves the table unchanged. -/
def _update_user_xp : DBConn → Int → Int → Int → Int → Int → DBConn
  | DBConn.absent, _, _, _, _, _ => DBConn.absent
  | DBConn.failing rows, _, _, _, _, _ => DBConn.failing rows
  | DBConn.ok rows, guild_id, user_id, level, xp, total_xp =>
    DBConn.ok (upsertKV rows (guild_id, user_id) (level, xp, total_xp))

/-- `_grant_xp` (leveling.py lines 435–475), ledger effect and return value:
with no connection it returns `(False, 0, 0)` at once; otherwise it reads
the current progress via `_get_user_data`, clamps
`new_total_xp = max(0, old_total_xp + xp_change)`, recomputes the level with
`_recalculate_level`, writes the row back via `_update_user_xp`, and returns
`(leveled_up, new_level, old_level)`.  The role-reconciliation and
rank-threshold side effects of the source function touch only platform
roles, never the `users` table; they are modelled separately
(`_update_level_roles`, `_remove_all_level_roles`). -/
def _grant_xp (db : DBConn) (guild_id user_id : Int) (xp_change : Int) :
    (Bool × Int × Int) × DBConn :=
  match db with
  | DBConn.absent => ((false, 0, 0), DBConn.absent)
  | d =>
    let read := _get_user_data d guild_id user_id
    let old_level := read.1.1
    let old_total_xp := read.1.2.2
    let new_total_xp := max 0 (old_total_xp + xp_change)
    let lv := _recalculate_level new_total_xp
    ((decide (old_level < (lv.1 : Int)), (lv.1 : Int), old_level),
     _update_user_xp read.2 guild_id user_id (lv.1 : Int) lv.2 new_total_xp)

/-- The row the `users` table stores for `(guild_id, user_id)`. -/
def storedProgress (db : DBConn) (guild_id user_id : Int) : Option (Int × Int × Int) :=
  match db with
  | DBConn.absent => none
  | DBConn.failing rows => lookupKV rows (guild_id, user_id)
  | DBConn.ok rows => lookupKV rows (guild_id, user_id)

/-- The total XP `_get_user_data` reports from a working table: the stored
value, or 0 for a missing row. -/
def oldTotalOf (rows : Rows) (guild_id user_id : Int) : Int :=
  ((lookupKV rows (guild_id, user_id)).getD (0, 0, 0)).2.2

/-- The statement of claim C2 at `(guild_id, user_id, X, rows)`: (a) after any
grant on a working table the stored row carries exactly
`max 0 (oldTotal + delta)` as total XP (so it is never negative); (b)
granting `+X` then `-X` to a user with no stored row ends with the row
`(0, 0, 0)` and a returned new level of 0; (c) granting `-X` to a user
stored as `(0, 0, 0)` keeps the row `(0, 0, 0)`. -/
def GrantRoundTrip (guild_id user_id X : Int) (rows : Rows) : Prop :=
  (∀ (rows' : Rows) (d : Int),
    storedProgress ((_grant_xp (DBConn.ok rows') guild_id user_id d).2) guild_id user_id =
      some (((_recalculate_level (max 0 (oldTotalOf rows' guild_id user_id + d))).1 : Int),
            (_recalculate_level (max 0 (oldTotalOf rows' guild_id user_id + d))).2,
            max 0 (oldTotalOf rows' guild_id user_id + d)) ∧
    0 ≤ max 0 (oldTotalOf rows' guild_id user_id + d)) ∧
  (storedProgress ((_grant_xp ((_grant_xp (DBConn.ok rows) guild_id user_id X).2)
        guild_id user_id (-X)).2) guild_id user_id = some (0, 0, 0) ∧
    (_grant_xp ((_grant_xp (DBConn.ok rows) guild_id user_id X).2)
        guild_id user_id (-X)).1.2.1 = 0) ∧
  storedProgress ((_grant_xp (DBConn.ok (upsertKV rows (guild_id, user_id) (0, 0, 0)))
      guild_id user_id (-X)).2) guild_id user_id = some (0, 0, 0)

/-- The statement of amended claim C6: with the connection absent, the grant
operation returns the zero-effect tuple `(False, 0, 0)` and changes nothing;
when the read query raises (and the write on the same broken connection
raises too) the stored rows are unchanged, but the returned tuple is
computed from a zeroed read — its new level is `_recalculate_level (max 0
delta)` and it may report a spurious level-up. -/
def GrantDegradedReadFailure : Prop :=
  (∀ (guild_id user_id d : Int),
    _grant_xp DBConn.absent guild_id user_id d = ((false, 0, 0), DBConn.absent)) ∧
  (∀ (rows : Rows) (guild_id user_id d : Int),
    (_grant_xp (DBConn.failing rows) guild_id user_id d).2 = DBConn.failing rows ∧
    (_grant_xp (DBConn.failing rows) guild_id user_id d).1 =
      (decide ((0 : Int) < ((_recalculate_level (max 0 d)).1 : Int)),
       ((_recalculate_level (max 0 d)).1 : Int), 0))

/-- The storage effect of the `seviye` level-display command
(leveling.py lines 538–552): it returns early when the connection is absent;
otherwise its only write path into the `users` table is its
`_get_user_data` call (line 552), which inserts a `(0, 0, 0)` row when none
exists.  Its other queries (`_get_user_rank`) are read-only. -/
def rank_command_ledger (db : DBConn) (guild_id user_id : Int) : DBConn :=
  match db with
  | DBConn.absent => DBConn.absent
  | d => (_get_user_data d guild_id user_id).2

/-- The storage effect of `_correct_member_level_roles`
(leveling.py lines 393–431), the per-member startup correction pass: its
only `users`-table interaction is the `_get_user_data` read fetching the
member's level (line 396). -/
def correct_member_ledger (db : DBConn) (guild_id user_id : Int) : DBConn :=
  (_get_user_data db guild_id user_id).2

/-- The statement of amended claim C7: the level-display command and the
startup correction pass have the same ledger effect — on a working table
they leave an existing row unchanged and insert the default `(0, 0, 0)` row
when none exists (lazy creation by any `_get_user_data` read, not only the
first message or an admin grant), and with an absent connection they touch
nothing. -/
def LazyRowCreation (rows : Rows) (guild_id user_id : Int) : Prop :=
  rank_command_ledger (DBConn.ok rows) guild_id user_id =
    correct_member_ledger (DBConn.ok rows) guild_id user_id ∧
  rank_command_ledger (DBConn.ok rows) guild_id user_id =
    (match lookupKV rows (guild_id, user_id) with
     | some _ => DBConn.ok rows
     | none => DBConn.ok (upsertKV rows (guild_id, user_id) (0, 0, 0))) ∧
  rank_command_ledger DBConn.absent guild_id user_id = DBConn.absent ∧
  correct_member_ledger DBConn.absent guild_id user_id = DBConn.absent

/-- Decimal digit accumulator for `str_toInt?`. -/
def parseDigitsAux : List Char → Nat → Option Nat
  | [], acc => some acc
  | c :: cs, acc =>
    if '0' ≤ c ∧ c ≤ '9' then parseDigitsAux cs (acc * 10 + (c.toNat - 48))
    else none

/-- Python `int(...)` applied to the JSON string ids of the configuration
(`None` models the raised `ValueError`): an optional leading minus sign
followed by decimal digits.  The source only ever parses such plain decimal
id/level strings. -/
def str_toInt? (s : String) : Option Int :=
  match s.toList with
  | [] => none
  | '-' :: cs => if cs = [] then none else (parseDigitsAux cs 0).map (fun n => -(n : Int))
  | cs => (parseDigitsAux cs 0).map (fun n => (n : Int))

/-- A guild role as the reconciliation code uses it: identifier and position
in the role hierarchy. -/
structure Role where
  id : Int
  position : Int
deriving DecidableEq

/-- The guild's role registry; `get_role` is `discord.Guild.get_role`
(`None` when the id is unknown). -/
structure Guild where
  roles : List Role
deriving DecidableEq

def Guild.get_role (g : Guild) (rid : Int) : Option Role :=
  g.roles.find? (fun r => decide (r.id = rid))

/-- The bot's own member object as the reconciliation code reads it:
`guild_permissions.manage_roles` and `top_role.position`. -/
structure BotMember where
  manage_roles : Bool
  top_role_position : Int
deriving DecidableEq

/-- The cog's configuration (leveling.py lines 26–34), restricted to the keys
the embedded operations read.  `level_roles` keeps its JSON encoding —
string level keys mapped to string role ids — and `xp_boosts` maps
string-encoded user or role ids to float multipliers (modelled as `ℚ`). -/
structure Config where
  xp_cooldown_seconds : Int
  level_roles : List (String × String)
  remove_previous_roles : Bool
  blacklisted_channels : List Int
  xp_boosts : List (String × ℚ)

/-- A platform role-mutation call: one combined
`member.remove_roles(*roles, …)` or one `member.add_roles(role, …)`. -/
inductive RoleAction where
  | removeRoles (ids : List Int) : RoleAction
  | addRole (id : Int) : RoleAction
deriving DecidableEq

/-- The role ids a platform call touches. -/
def RoleAction.ids : RoleAction → List Int
  | RoleAction.removeRoles rs => rs
  | RoleAction.addRole r => [r]

/-- The removal set built when no role is mapped for the new level but
`remove_previous_roles` is set (leveling.py lines 249–264): every configured
level role the member holds whose id parses, which the guild still has, and
which sits strictly below the bot's top role. -/
def rolesToRemoveIfNoNewRole (guild : Guild) (bot : BotMember)
    (level_roles : List (String × String)) (member_roles : List Int) : List Int :=
  level_roles.filterMap fun p =>
    match str_toInt? p.2 with
    | none => none
    | some rid =>
      if rid ∈ member_roles then
        match guild.get_role rid with
        | some r => if r.position < bot.top_role_position then some rid else none
        | none => none
      else none

/-- The `roles_to_remove` set of `_update_level_roles` when a target role is
mapped (leveling.py lines 290–311): configured roles whose level key parses
to a level different from the new one, which the member currently holds and
which differ from the role being added; entries that fail to parse, roles
the guild no longer has, and roles at or above the bot's top role are
skipped. -/
def roles_to_remove (guild : Guild) (bot : BotMember)
    (level_roles : List (String × String)) (member_roles : List Int)
    (new_level : Int) (role_to_add_id : Int) : List Int :=
  level_roles.filterMap fun p =>
    match str_toInt? p.1, str_toInt? p.2 with
    | some lvl_int, some rid =>
      if lvl_int ≠ new_level ∧ rid ∈ member_roles ∧ rid ≠ role_to_add_id then
        match guild.get_role rid with
        | some r => if bot.top_role_position ≤ r.position then none else some rid
        | none => none
      else none
    | _, _ => none

/-- `_update_level_roles` (leveling.py lines 227–330): the sequence of
platform role-mutation calls reconciliation issues for `new_level`.  With no
target role mapped it optionally strips the held configured roles in one
combined call; with a mapped target it removes the stale configured roles in
one combined call and then adds the target if the member lacks it.  A
missing `manage_roles` permission, an unparsable target id, an unknown
target role, or a target at or above the bot's top role aborts with no
calls. -/
def _update_level_roles (bot : BotMember) (guild : Guild) (member_roles : List Int)
    (cfg : Config) (new_level : Int) : List RoleAction :=
  if ¬ bot.manage_roles then []
  else
    match lookupKV cfg.level_roles (toString new_level) with
    | none =>
      if cfg.remove_previous_roles then
        let rms := rolesToRemoveIfNoNewRole guild bot cfg.level_roles member_roles
        if rms = [] then [] else [RoleAction.removeRoles rms]
      else []
    | some role_id_to_add_str =>
      match str_toInt? role_id_to_add_str with
      | none => []
      | some role_to_add_id =>
        match guild.get_role role_to_add_id with
        | none => []
        | some role_to_add =>
          if bot.top_role_position ≤ role_to_add.position then []
          else
            let rms := if cfg.remove_previous_roles then
                roles_to_remove guild bot cfg.level_roles member_roles new_level role_to_add_id
              else []
            (if rms = [] then [] else [RoleAction.removeRoles rms]) ++
              (if role_to_add_id ∈ member_roles then [] else [RoleAction.addRole role_to_add_id])

/-- The removal set of `_remove_all_level_roles` (leveling.py lines 345–359):
every configured level role the member holds, skipping unparsable ids,
roles the guild no longer has, and roles at or above the bot's top role. -/
def allHeldLevelRoles (guild : Guild) (bot : BotMember)
    (level_roles : List (String × String)) (member_roles : List Int) : List Int :=
  level_roles.filterMap fun p =>
    match str_toInt? p.2 with
    | none => none
    | some rid =>
      if rid ∈ member_roles then
        match guild.get_role rid with
        | some r => if bot.top_role_position ≤ r.position then none else some rid
        | none => none
      else none

/-- `_remove_all_level_roles` (leveling.py lines 333–368): one combined
removal of every configured level role the member holds (hierarchy-safe
subset); no call when nothing is to remove. -/
def _remove_all_level_roles (bot : BotMember) (guild : Guild) (member_roles : List Int)
    (cfg : Config) : List RoleAction :=
  let rms := allHeldLevelRoles guild bot cfg.level_roles member_roles
  if rms = [] then [] else [RoleAction.removeRoles rms]

/-- `_correct_member_level_roles` (leveling.py lines 393–431), role-mutation
effect and ledger pass-through: reads the stored level, strips every
configured level role via `_remove_all_level_roles`, then re-adds the role
mapped for the stored level when its id parses, the guild has it, it sits
strictly below the bot's top role, and the member's cached role list (the
pre-removal roles, since the platform cache is not updated synchronously)
does not already contain it. -/
def _correct_member_level_roles (bot : BotMember) (guild : Guild)
    (member_roles : List Int) (cfg : Config) (db : DBConn) (guild_id user_id : Int) :
    List RoleAction × DBConn :=
  let read := _get_user_data db guild_id user_id
  let level := read.1.1
  let removeActs := _remove_all_level_roles bot guild member_roles cfg
  match lookupKV cfg.level_roles (toString level) with
  | none => (removeActs, read.2)
  | some ridStr =>
    match str_toInt? ridStr with
    | none => (removeActs, read.2)
    | some role_id =>
      match guild.get_role role_id with
      | none => (removeActs, read.2)
      | some role =>
        if bot.top_role_position ≤ role.position then (removeActs, read.2)
        else if role_id ∈ member_roles then (removeActs, read.2)
        else (removeActs ++ [RoleAction.addRole role_id], read.2)

/-- Effect of one platform role-mutation call on the member's role-id set. -/
def applyRoleAction (roles : List Int) : RoleAction → List Int
  | RoleAction.removeRoles rs => roles.filter (fun r => decide (r ∉ rs))
  | RoleAction.addRole r => if r ∈ roles then roles else roles ++ [r]

/-- Effect of a sequence of platform role-mutation calls. -/
def applyRoleActions (roles : List Int) (acts : List RoleAction) : List Int :=
  acts.foldl applyRoleAction roles

/-- The statement of claim C3 at the given inputs: the reconciliation output
is literally one optional combined removal call followed by one optional
addition call (so at most two platform calls, removal first, the addition
only when the member lacks the target), and the removal list is exactly the
configured roles whose level key parses to a different level, that the
member holds, that differ from the target, and that pass the
guild-resolution and hierarchy checks. -/
def TwoCallShape (bot : BotMember) (guild : Guild) (member_roles : List Int)
    (cfg : Config) (new_level tid : Int) : Prop :=
  _update_level_roles bot guild member_roles cfg new_level =
    (if roles_to_remove guild bot cfg.level_roles member_roles new_level tid = [] then []
     else [RoleAction.removeRoles
       (roles_to_remove guild bot cfg.level_roles member_roles new_level tid)]) ++
    (if tid ∈ member_roles then [] else [RoleAction.addRole tid]) ∧
  (_update_level_roles bot guild member_roles cfg new_level).length ≤ 2 ∧
  ∀ rid : Int,
    rid ∈ roles_to_remove guild bot cfg.level_roles member_roles new_level tid ↔
      ∃ p ∈ cfg.level_roles, ∃ lvl_int, str_toInt? p.1 = some lvl_int ∧
        str_toInt? p.2 = some rid ∧ lvl_int ≠ new_level ∧ rid ∈ member_roles ∧ rid ≠ tid ∧
        ∃ r, guild.get_role rid = some r ∧ r.position < bot.top_role_position

/-- Hierarchy safety of a call sequence: every role id any call touches
resolves in the guild to a role strictly below the bot's top role. -/
def HierarchySafe (guild : Guild) (bot : BotMember) (acts : List RoleAction) : Prop :=
  ∀ act ∈ acts, ∀ rid ∈ act.ids, ∃ r, guild.get_role rid = some r ∧
    r.position < bot.top_role_position

/-- Well-formedness of a level-role map relative to a guild and the bot: each
entry's level key parses to an integer whose canonical string form is the
key itself, each role id parses, and each mapped role exists in the guild
strictly below the bot's top role. -/
def CleanLevelRoles (guild : Guild) (bot : BotMember)
    (level_roles : List (String × String)) : Prop :=
  ∀ p ∈ level_roles, ∃ lvl_int rid, str_toInt? p.1 = some lvl_int ∧
    toString lvl_int = p.1 ∧ str_toInt? p.2 = some rid ∧
    ∃ r, guild.get_role rid = some r ∧ r.position < bot.top_role_position

/-- The statement of claim C5 at the given inputs: after one reconciliation
run from `member_roles` (platform effects applied to the role set), the
member holds the role mapped for the level (when one is mapped) and none of
the other mapped roles, and a second identical reconciliation issues no
platform calls at all. -/
def ReconcileIdempotent (bot : BotMember) (guild : Guild) (member_roles : List Int)
    (cfg : Config) (new_level : Int) : Prop :=
  _update_level_roles bot guild
      (applyRoleActions member_roles (_update_level_roles bot guild member_roles cfg new_level))
      cfg new_level = [] ∧
  (∀ (tStr : String) (tid : Int),
    lookupKV cfg.level_roles (toString new_level) = some tStr → str_toInt? tStr = some tid →
    tid ∈ applyRoleActions member_roles
      (_update_level_roles bot guild member_roles cfg new_level)) ∧
  ∀ rid : Int, (∃ p ∈ cfg.level_roles, str_toInt? p.2 = some rid) →
    (∀ tStr : String, lookupKV cfg.level_roles (toString new_level) = some tStr →
      str_toInt? tStr ≠ some rid) →
    rid ∉ applyRoleActions member_roles
      (_update_level_roles bot guild member_roles cfg new_level)

/-- One step of the role loop of `_get_xp_boost` (leveling.py lines 220–223):
look up the configured boost for a role id and keep the maximum; a missing
or zero (falsy) entry leaves the accumulator unchanged. -/
def boostStep (boosts : List (String × ℚ)) (b : ℚ) (rid : Int) : ℚ :=
  match lookupKV boosts (toString rid) with
  | some v => if v ≠ 0 then max b v else b
  | none => b

/-- `_get_xp_boost` (leveling.py lines 211–224): the member's XP multiplier —
starts at `1.0`, folds in the configured boost for the member's own id and
then for each role the member holds, keeping the maximum each time; `if
user_boost:` skips missing and zero (falsy) entries.  Floats are modelled as
`ℚ`: the function only compares and takes maxima, which are exact. -/
def _get_xp_boost (boosts : List (String × ℚ)) (member_id : Int)
    (member_role_ids : List Int) : ℚ :=
  let user_boost :=
    match lookupKV boosts (toString member_id) with
    | some v => if v ≠ 0 then max 1 v else 1
    | none => 1
  member_role_ids.foldl (boostStep boosts) user_boost

/-- All configured multipliers applicable to a member: the entry stored under
the member's own id plus the entries stored under each held role id. -/
def applicableBoosts (boosts : List (String × ℚ)) (member_id : Int)
    (member_role_ids : List Int) : List ℚ :=
  (lookupKV boosts (toString member_id)).toList ++
    member_role_ids.filterMap (fun rid => lookupKV boosts (toString rid))

/-- The statement of claim C9 at the given inputs: the computed multiplier is
at least 1, is an upper bound of every configured multiplier applicable to
the member, and is attained — it is either exactly 1 or one of the
applicable multipliers (so boosts below 1 cannot reduce XP and multiple
boosts never stack, only the largest applies). -/
def BoostIsMax (boosts : List (String × ℚ)) (member_id : Int)
    (member_role_ids : List Int) : Prop :=
  1 ≤ _get_xp_boost boosts member_id member_role_ids ∧
  (∀ v ∈ applicableBoosts boosts member_id member_role_ids,
    v ≤ _get_xp_boost boosts member_id member_role_ids) ∧
  (_get_xp_boost boosts member_id member_role_ids = 1 ∨
    _get_xp_boost boosts member_id member_role_ids ∈
      applicableBoosts boosts member_id member_role_ids)

/-- The in-memory cooldown state `self.user_message_cooldowns`:
guild id → (user id → last-grant timestamp).  `time.time()` values are
modelled as integers; the handler only subtracts and compares them. -/
abbrev Cooldowns := List (Int × List (Int × Int))

/-- `self.user_message_cooldowns[guild_id] = {}` when the guild key is
missing (leveling.py lines 507–508). -/
def initGuildCooldowns (cds : Cooldowns) (guild_id : Int) : Cooldowns :=
  match lookupKV cds guild_id with
  | some _ => cds
  | none => cds ++ [(guild_id, [])]

/-- `self.user_message_cooldowns[guild_id].get(user_id, 0)` (line 510). -/
def getUserCooldown (cds : Cooldowns) (guild_id user_id : Int) : Int :=
  match lookupKV cds guild_id with
  | some m => (lookupKV m user_id).getD 0
  | none => 0

/-- `self.user_message_cooldowns[guild_id][user_id] = current_time`
(line 516). -/
def setUserCooldown (cds : Cooldowns) (guild_id user_id t : Int) : Cooldowns :=
  cds.map (fun p => if p.1 = guild_id then (p.1, upsertKV p.2 user_id t) else p)

/-- Python `int()` on a rational: truncation toward zero (used on
`base_xp * boost`, line 520). -/
def pyInt (q : ℚ) : Int :=
  if 0 ≤ q then ⌊q⌋ else -(⌊-q⌋)

/-- The data of one `on_message` event (leveling.py lines 479–523): author
and channel ids, whether the author is a bot, whether the message was sent
in a guild, whether its content starts with the command marker, the current
time, and the base XP rolled by `random.randint`. -/
structure OnMessageCtx where
  author_bot : Bool
  in_guild : Bool
  channel_id : Int
  guild_id : Int
  author_id : Int
  author_role_ids : List Int
  starts_with_command_marker : Bool
  now : Int
  base_xp : Int

/-- `on_message` (leveling.py lines 479–523) as a state transition on the
cooldown map and the XP ledger, returning also whether `_grant_xp` was
invoked.  Bot authors, direct messages, blacklisted channels and
command-marker messages return with nothing changed; otherwise the guild's
cooldown dict is created if missing, the per-user cooldown is checked, and
when it has elapsed the timestamp is recorded and `_grant_xp` is called
with `int(base_xp * boost)`. -/
def on_message (cfg : Config) (cds : Cooldowns) (db : DBConn) (msg : OnMessageCtx) :
    Cooldowns × DBConn × Bool :=
  if msg.author_bot || !msg.in_guild then (cds, db, false)
  else if msg.channel_id ∈ cfg.blacklisted_channels then (cds, db, false)
  else if msg.starts_with_command_marker then (cds, db, false)
  else
    let cds1 := initGuildCooldowns cds msg.guild_id
    let last := getUserCooldown cds1 msg.guild_id msg.author_id
    if msg.now - last < cfg.xp_cooldown_seconds then (cds1, db, false)
    else
      let cds2 := setUserCooldown cds1 msg.guild_id msg.author_id msg.now
      let boost := _get_xp_boost cfg.xp_boosts msg.author_id msg.author_role_ids
      let xp_to_add := pyInt ((msg.base_xp : ℚ) * boost)
      (cds2, (_grant_xp db msg.guild_id msg.author_id xp_to_add).2, true)

/-- Concrete scenario for the role claims: a bot with `manage_roles` whose
top role sits at position 50. -/
def scenarioBot : BotMember := ⟨true, 50⟩

/-- Concrete scenario guild holding role 10 (position 1) and role 20
(position 2). -/
def scenarioGuild : Guild := ⟨[⟨10, 1⟩, ⟨20, 2⟩]⟩

/-- Concrete scenario configuration: level-role map `{"0": "10", "2": "20"}`
with `remove_previous_roles` on. -/
def scenarioCfg : Config := ⟨60, [("0", "10"), ("2", "20")], true, [], []⟩

/-- Concrete scenario for C8: channel 5 is blacklisted. -/
def scenarioCfgBL : Config := ⟨60, [], true, [5], []⟩

/-- Concrete scenario message: a non-bot author writing in guild 1,
channel 5. -/
def scenarioMsg : OnMessageCtx := ⟨false, true, 5, 1, 2, [], false, 1000, 20⟩

/-- Counterexample scenario bot for C5: `manage_roles` held, top role at
position 50. -/
def cex5Bot : BotMember := ⟨true, 50⟩

/-- Counterexample scenario guild for C5: role 10 sits at position 1 (below
the bot's top role), role 99 at position 100 (at or above it). -/
def cex5Guild : Guild := ⟨[⟨10, 1⟩, ⟨99, 100⟩]⟩

/-- Counterexample scenario configuration for C5: level-role map
`{"0": "10", "5": "99"}` with `remove_previous_roles` on; the stale mapped
role 99 outranks the bot. -/
def cex5Cfg : Config := ⟨60, [("0", "10"), ("5", "99")], true, [], []⟩

lemma calc_xp_of_nonneg (level : Int) (h : 0 ≤ level) :
    _calculate_xp_for_level level = 5 * level ^ 2 + 50 * level + 100 := by
  unfold _calculate_xp_for_level
  rw [if_neg (not_lt.2 h)]

lemma calc_xp_ge_100 (level : Int) (h : 0 ≤ level) :
    100 ≤ _calculate_xp_for_level level := by
  rw [calc_xp_of_nonneg level h]
  nlinarith [sq_nonneg level]

lemma calc_xp_nat_ge_100 (n : Nat) : 100 ≤ _calculate_xp_for_level (n : Int) :=
  calc_xp_ge_100 _ (Int.natCast_nonneg n)

lemma recalcAux_correct (total : Int) :
    ∀ (fuel level : Nat) (cum : Int),
      cum = cumulativeXp level → cum ≤ total → total - cum < 100 * (fuel : Int) →
      level ≤ (recalcAux total fuel level cum).1 ∧
      cumulativeXp (recalcAux total fuel level cum).1 + (recalcAux total fuel level cum).2 = total ∧
      0 ≤ (recalcAux total fuel level cum).2 ∧
      (recalcAux total fuel level cum).2 <
        _calculate_xp_for_level ((recalcAux total fuel level cum).1 : Int) := by
  intro fuel
  induction fuel with
  | zero =>
    intro level cum _ hle hfuel
    simp only [Nat.cast_zero, mul_zero] at hfuel
    omega
  | succ f ih =>
    intro level cum hcum hle hfuel
    have h100 := calc_xp_nat_ge_100 level
    simp only [recalcAux]
    split
    · rename_i hcond
      have hrec := ih (level + 1) (cum + _calculate_xp_for_level (level : Int))
        (by simp [cumulativeXp, hcum]) hcond
        (by push_cast at hfuel ⊢; linarith)
      exact ⟨le_trans (Nat.le_succ level) hrec.1, hrec.2.1, hrec.2.2.1, hrec.2.2.2⟩
    · rename_i hcond
      push_neg at hcond
      subst hcum
      refine ⟨le_refl _, ?_, ?_, ?_⟩
      · show cumulativeXp level + (total - cumulativeXp level) = total
        ring
      · show 0 ≤ total - cumulativeXp level
        omega
      · show total - cumulativeXp level < _calculate_xp_for_level (level : Int)
        omega

lemma cumulativeXp_le_succ (n : Nat) : cumulativeXp n ≤ cumulativeXp (n + 1) := by
  have := calc_xp_nat_ge_100 n
  show cumulativeXp n ≤ cumulativeXp n + _calculate_xp_for_level (n : Int)
  linarith

lemma cumulativeXp_mono : Monotone cumulativeXp :=
  monotone_nat_of_le_succ cumulativeXp_le_succ

lemma decomposition_unique {L L' : Nat} {r r' : Int}
    (h : cumulativeXp L + r = cumulativeXp L' + r')
    (hr : 0 ≤ r) (hrlt : r < _calculate_xp_for_level (L : Int))
    (hr' : 0 ≤ r') (hrlt' : r' < _calculate_xp_for_level (L' : Int)) :
    L = L' ∧ r = r' := by
  rcases Nat.lt_trichotomy L L' with hlt | heq | hgt
  · exfalso
    have hstep : cumulativeXp (L + 1) ≤ cumulativeXp L' := cumulativeXp_mono hlt
    have : cumulativeXp (L + 1) = cumulativeXp L + _calculate_xp_for_level (L : Int) := rfl
    linarith
  · subst heq
    exact ⟨rfl, by linarith⟩
  · exfalso
    have hstep : cumulativeXp (L' + 1) ≤ cumulativeXp L := cumulativeXp_mono hgt
    have : cumulativeXp (L' + 1) = cumulativeXp L' + _calculate_xp_for_level (L' : Int) := rfl
    linarith

lemma cumulativeXp_eq_sum (n : Nat) :
    cumulativeXp n = ∑ i ∈ Finset.range n, _calculate_xp_for_level (i : Int) := by
  induction n with
  | zero => simp [cumulativeXp]
  | succ m ih => rw [Finset.sum_range_succ, ← ih]; rfl

lemma fuel_bound (total : Int) (htotal : 0 ≤ total) :
    total - 0 < 100 * ((total.toNat + 1 : Nat) : Int) := by
  have := Int.toNat_of_nonneg htotal
  push_cast
  omega

lemma recalculate_level_correct (total : Int) (htotal : 0 ≤ total) :
    cumulativeXp (_recalculate_level total).1 + (_recalculate_level total).2 = total ∧
    0 ≤ (_recalculate_level total).2 ∧
    (_recalculate_level total).2 < _calculate_xp_for_level ((_recalculate_level total).1 : Int) := by
  have h := recalcAux_correct total (total.toNat + 1) 0 0 rfl htotal (fuel_bound total htotal)
  exact ⟨h.2.1, h.2.2.1, h.2.2.2⟩

/-- C1: for every `totalXp ≥ 0`, `_recalculate_level` returns the unique pair
`(level, rem)` with `(∑ i < level, xpRequiredForLevel i) + rem = totalXp` and
`0 ≤ rem < xpRequiredForLevel level`, where
`xpRequiredForLevel l = 5*l^2 + 50*l + 100`. -/
theorem claim1_level_decomposition (total : Int) (htotal : 0 ≤ total) :
    LevelDecompCorrect total := by
  have h := recalculate_level_correct total htotal
  refine ⟨h.1, h.2.1, h.2.2, cumulativeXp_eq_sum _, ?_⟩
  intro L r hsum hr hrlt
  exact decomposition_unique (by rw [hsum]; exact h.1.symm) hr hrlt h.2.1 h.2.2

theorem claim1_witness : 0 ≤ (400 : Int) ∧ LevelDecompCorrect 400 :=
  ⟨by norm_num, claim1_level_decomposition 400 (by norm_num)⟩

lemma recalcAux_fuel_irrelevant (total : Int) :
    ∀ (fuel level : Nat) (cum : Int), total - cum < 100 * (fuel : Int) →
      ∀ fuel₂, fuel ≤ fuel₂ → recalcAux total fuel₂ level cum = recalcAux total fuel level cum := by
  intro fuel
  induction fuel with
  | zero =>
    intro level cum hb fuel₂ _
    cases fuel₂ with
    | zero => rfl
    | succ k =>
      have h100 := calc_xp_nat_ge_100 level
      simp only [Nat.cast_zero, mul_zero] at hb
      simp only [recalcAux]
      rw [if_neg (by omega)]
  | succ f ih =>
    intro level cum hb fuel₂ hle
    cases fuel₂ with
    | zero => omega
    | succ k =>
      have h100 := calc_xp_nat_ge_100 level
      simp only [recalcAux]
      split
      · rename_i hcond
        exact ih (level + 1) (cum + _calculate_xp_for_level (level : Int))
          (by push_cast at hb ⊢; linarith) k (Nat.succ_le_succ_iff.mp hle)
      · rfl

/-- C10: the iterative level decomposition terminates for every
`totalXp ≥ 0`: each iteration adds `xpRequiredForLevel level ≥ 100` to the
accumulator, and `total.toNat + 1` iterations of fuel are always enough — any
larger fuel produces the same answer. -/
theorem claim10_termination (total : Int) (htotal : 0 ≤ total) :
    RecalcTerminates total := by
  refine ⟨calc_xp_ge_100, ?_⟩
  intro fuel hfuel
  exact recalcAux_fuel_irrelevant total (total.toNat + 1) 0 0 (fuel_bound total htotal) fuel hfuel

theorem claim10_witness : 0 ≤ (250 : Int) ∧ RecalcTerminates 250 :=
  ⟨by norm_num, claim10_termination 250 (by norm_num)⟩

lemma lookupKV_upsert_self {κ α : Type} [DecidableEq κ] (l : List (κ × α)) (k : κ) (v : α) :
    lookupKV (upsertKV l k v) k = some v := by
  induction l with
  | nil => simp [upsertKV, lookupKV]
  | cons p rest ih =>
    by_cases h : p.1 = k
    · simpa [upsertKV, lookupKV, h] using ih
    · simpa [upsertKV, lookupKV, h] using ih

lemma recalc_zero : _recalculate_level 0 = (0, 0) := rfl

lemma grant_ok_total (rows' : Rows) (guild_id user_id d : Int) :
    storedProgress ((_grant_xp (DBConn.ok rows') guild_id user_id d).2) guild_id user_id =
      some (((_recalculate_level (max 0 (oldTotalOf rows' guild_id user_id + d))).1 : Int),
            (_recalculate_level (max 0 (oldTotalOf rows' guild_id user_id + d))).2,
            max 0 (oldTotalOf rows' guild_id user_id + d)) := by
  cases h : lookupKV rows' (guild_id, user_id) with
  | none =>
    simp [_grant_xp, _get_user_data, _update_user_xp, storedProgress, oldTotalOf, h,
      lookupKV_upsert_self]
  | some v =>
    simp [_grant_xp, _get_user_data, _update_user_xp, storedProgress, oldTotalOf, h,
      lookupKV_upsert_self]

/-- C2: the grant operation computes `new_total_xp = max(0, old_total_xp +
xp_change)`, so stored total XP is never negative; granting `+X` then `-X` to
a fresh user (no stored row) leaves the row at `(0, 0, 0)` with returned
level 0, and granting `-X` from total 0 keeps total 0. -/
theorem claim2_grant_clamp_roundtrip (guild_id user_id X : Int) (hX : 0 ≤ X)
    (rows : Rows) (hfresh : lookupKV rows (guild_id, user_id) = none) :
    GrantRoundTrip guild_id user_id X rows := by
  have hmax : max 0 X = X := max_eq_right hX
  have hmaxneg : max 0 (-X) = 0 := max_eq_left (neg_nonpos.mpr hX)
  have h1 : (_grant_xp (DBConn.ok rows) guild_id user_id X).2 =
      DBConn.ok (upsertKV (upsertKV rows (guild_id, user_id) (0, 0, 0)) (guild_id, user_id)
        (((_recalculate_level X).1 : Int), (_recalculate_level X).2, X)) := by
    simp [_grant_xp, _get_user_data, _update_user_xp, hfresh, hmax]
  refine ⟨fun rows' d => ⟨grant_ok_total rows' guild_id user_id d, le_max_left _ _⟩,
    ⟨?_, ?_⟩, ?_⟩
  · rw [h1]
    simp [_grant_xp, _get_user_data, _update_user_xp, storedProgress,
      lookupKV_upsert_self, recalc_zero]
  · rw [h1]
    simp [_grant_xp, _get_user_data, lookupKV_upsert_self, recalc_zero]
  · simp [_grant_xp, _get_user_data, _update_user_xp, storedProgress,
      lookupKV_upsert_self, hmaxneg, recalc_zero]

theorem claim2_witness :
    0 ≤ (250 : Int) ∧ lookupKV ([] : Rows) (1, 2) = none ∧ GrantRoundTrip 1 2 250 [] :=
  ⟨by norm_num, rfl, claim2_grant_clamp_roundtrip 1 2 250 (by norm_num) [] rfl⟩

/-- C6 counterexample: with a connection present but whose queries raise
(caught) errors, a grant of +400 XP does not return the zero-effect tuple
`(False, 0, 0)`: the failed read yields `(0, 0, 0)` as old data and the
grant proceeds, reporting a spurious level-up `(True, 2, 0)`. -/
theorem claim6_counterexample :
    (_grant_xp (DBConn.failing []) 1 1 400).1 ≠ (false, 0, 0) := by decide

/-- C6 amended: read failure with an absent connection is a true no-op with a
zero-effect tuple; a raised (caught) query error leaves storage unchanged
but the returned tuple reflects a recomputation from zeroed data. -/
theorem claim6_amended_degraded_read : GrantDegradedReadFailure := by
  refine ⟨fun guild_id user_id d => rfl, fun rows guild_id user_id d => ⟨rfl, ?_⟩⟩
  simp [_grant_xp, _get_user_data]

/-- C7 counterexample: the level-display command, run for a user with no
stored row, creates one — it changes the table from empty to holding the
`(0, 0, 0)` row, contradicting the claim that no operation besides the
first eligible message and admin grants creates a ledger row. -/
theorem claim7_counterexample :
    rank_command_ledger (DBConn.ok []) 1 2 = DBConn.ok [((1, 2), (0, 0, 0))] ∧
    rank_command_ledger (DBConn.ok []) 1 2 ≠ DBConn.ok [] := by decide

/-- C7 amended: a `UserProgress` row is created lazily, defaulting to
`(0, 0, 0)`, by any operation that reads a missing row through
`_get_user_data` — including the level-display command and the startup
correction pass; beyond that default initialization those two reads never
modify an existing row. -/
theorem claim7_amended_lazy_creation (rows : Rows) (guild_id user_id : Int) :
    LazyRowCreation rows guild_id user_id := by
  cases h : lookupKV rows (guild_id, user_id) with
  | none => exact ⟨rfl, by simp [rank_command_ledger, _get_user_data, h], rfl, rfl⟩
  | some v => exact ⟨rfl, by simp [rank_command_ledger, _get_user_data, h], rfl, rfl⟩

lemma mem_roles_to_remove {guild : Guild} {bot : BotMember}
    {level_roles : List (String × String)} {member_roles : List Int}
    {new_level role_to_add_id rid : Int} :
    rid ∈ roles_to_remove guild bot level_roles member_roles new_level role_to_add_id ↔
      ∃ p ∈ level_roles, ∃ lvl_int, str_toInt? p.1 = some lvl_int ∧ str_toInt? p.2 = some rid ∧
        lvl_int ≠ new_level ∧ rid ∈ member_roles ∧ rid ≠ role_to_add_id ∧
        ∃ r, guild.get_role rid = some r ∧ r.position < bot.top_role_position := by
  rw [roles_to_remove, List.mem_filterMap]
  constructor
  · rintro ⟨p, hp, hf⟩
    refine ⟨p, hp, ?_⟩
    split at hf
    · rename_i lvl_int rid' h1 h2
      split at hf
      · rename_i hcond
        split at hf
        · rename_i r hr
          split at hf
          · exact absurd hf (by simp)
          · rename_i hpos
            rw [Option.some.injEq] at hf
            subst hf
            exact ⟨lvl_int, h1, h2, hcond.1, hcond.2.1, hcond.2.2, r, hr, not_le.mp hpos⟩
        · exact absurd hf (by simp)
      · exact absurd hf (by simp)
    · exact absurd hf (by simp)
  · rintro ⟨p, hp, lvl_int, h1, h2, h3, h4, h5, r, hr, hpos⟩
    exact ⟨p, hp, by simp [h1, h2, h3, h4, h5, hr, not_le.mpr hpos]⟩

lemma mem_strip_list {guild : Guild} {bot : BotMember}
    {level_roles : List (String × String)} {member_roles : List Int} {rid : Int} :
    rid ∈ rolesToRemoveIfNoNewRole guild bot level_roles member_roles ↔
      ∃ p ∈ level_roles, str_toInt? p.2 = some rid ∧ rid ∈ member_roles ∧
        ∃ r, guild.get_role rid = some r ∧ r.position < bot.top_role_position := by
  rw [rolesToRemoveIfNoNewRole, List.mem_filterMap]
  constructor
  · rintro ⟨p, hp, hf⟩
    refine ⟨p, hp, ?_⟩
    split at hf
    · exact absurd hf (by simp)
    · rename_i rid' h2
      split at hf
      · rename_i hmem
        split at hf
        · rename_i r hr
          split at hf
          · rename_i hpos
            rw [Option.some.injEq] at hf
            subst hf
            exact ⟨h2, hmem, r, hr, hpos⟩
          · exact absurd hf (by simp)
        · exact absurd hf (by simp)
      · exact absurd hf (by simp)
  · rintro ⟨p, hp, h2, hmem, r, hr, hpos⟩
    exact ⟨p, hp, by simp [h2, hmem, hr, hpos]⟩

lemma mem_all_held {guild : Guild} {bot : BotMember}
    {level_roles : List (String × String)} {member_roles : List Int} {rid : Int} :
    rid ∈ allHeldLevelRoles guild bot level_roles member_roles ↔
      ∃ p ∈ level_roles, str_toInt? p.2 = some rid ∧ rid ∈ member_roles ∧
        ∃ r, guild.get_role rid = some r ∧ r.position < bot.top_role_position := by
  rw [allHeldLevelRoles, List.mem_filterMap]
  constructor
  · rintro ⟨p, hp, hf⟩
    refine ⟨p, hp, ?_⟩
    split at hf
    · exact absurd hf (by simp)
    · rename_i rid' h2
      split at hf
      · rename_i hmem
        split at hf
        · rename_i r hr
          split at hf
          · exact absurd hf (by simp)
          · rename_i hpos
            rw [Option.some.injEq] at hf
            subst hf
            exact ⟨h2, hmem, r, hr, not_le.mp hpos⟩
        · exact absurd hf (by simp)
      · exact absurd hf (by simp)
  · rintro ⟨p, hp, h2, hmem, r, hr, hpos⟩
    exact ⟨p, hp, by simp [h2, hmem, hr, not_le.mpr hpos]⟩

lemma update_shape_target {bot : BotMember} {guild : Guild} {member_roles : List Int}
    {cfg : Config} {new_level : Int} {tStr : String} {tid : Int} {tRole : Role}
    (hmanage : bot.manage_roles = true)
    (hlook : lookupKV cfg.level_roles (toString new_level) = some tStr)
    (hparse : str_toInt? tStr = some tid)
    (hrole : guild.get_role tid = some tRole)
    (hpos : tRole.position < bot.top_role_position) :
    _update_level_roles bot guild member_roles cfg new_level =
      (if (if cfg.remove_previous_roles then
            roles_to_remove guild bot cfg.level_roles member_roles new_level tid
          else []) = [] then []
       else [RoleAction.removeRoles (if cfg.remove_previous_roles then
            roles_to_remove guild bot cfg.level_roles member_roles new_level tid
          else [])]) ++
      (if tid ∈ member_roles then [] else [RoleAction.addRole tid]) := by
  simp [_update_level_roles, hmanage, hlook, hparse, hrole, not_le.mpr hpos]

lemma update_shape_none {bot : BotMember} {guild : Guild} {member_roles : List Int}
    {cfg : Config} {new_level : Int}
    (hmanage : bot.manage_roles = true)
    (hlook : lookupKV cfg.level_roles (toString new_level) = none) :
    _update_level_roles bot guild member_roles cfg new_level =
      (if cfg.remove_previous_roles then
        (if rolesToRemoveIfNoNewRole guild bot cfg.level_roles member_roles = [] then []
         else [RoleAction.removeRoles
           (rolesToRemoveIfNoNewRole guild bot cfg.level_roles member_roles)])
       else []) := by
  simp [_update_level_roles, hmanage, hlook]

/-- C3: when a target role is mapped for the new level, resolvable, below the
bot's top role, and `remove_previous_roles` is on, reconciliation issues at
most two platform calls in fixed order — one combined removal of every
(checked) mapped role of a different level that the member holds, then one
addition of the target when the member lacks it. -/
theorem claim3_remove_then_add (bot : BotMember) (guild : Guild)
    (member_roles : List Int) (cfg : Config) (new_level : Int)
    (tStr : String) (tid : Int) (tRole : Role)
    (hmanage : bot.manage_roles = true)
    (hprev : cfg.remove_previous_roles = true)
    (hlook : lookupKV cfg.level_roles (toString new_level) = some tStr)
    (hparse : str_toInt? tStr = some tid)
    (hrole : guild.get_role tid = some tRole)
    (hpos : tRole.position < bot.top_role_position) :
    TwoCallShape bot guild member_roles cfg new_level tid := by
  have hshape := @update_shape_target bot guild member_roles cfg new_level tStr tid tRole
    hmanage hlook hparse hrole hpos
  rw [hprev] at hshape
  simp only [if_true] at hshape
  refine ⟨hshape, ?_, fun rid => mem_roles_to_remove⟩
  rw [hshape]
  split <;> split <;> simp

lemma hierarchySafe_nil {guild : Guild} {bot : BotMember} :
    HierarchySafe guild bot [] := by
  intro act hact
  simp at hact

lemma hierarchySafe_append {guild : Guild} {bot : BotMember} {l₁ l₂ : List RoleAction}
    (h₁ : HierarchySafe guild bot l₁) (h₂ : HierarchySafe guild bot l₂) :
    HierarchySafe guild bot (l₁ ++ l₂) := by
  intro act hact
  rcases List.mem_append.mp hact with h | h
  exacts [h₁ act h, h₂ act h]

lemma hierarchySafe_removeIf {guild : Guild} {bot : BotMember} {rms : List Int}
    (h : ∀ rid ∈ rms, ∃ r, guild.get_role rid = some r ∧
      r.position < bot.top_role_position) :
    HierarchySafe guild bot (if rms = [] then [] else [RoleAction.removeRoles rms]) := by
  split
  · exact hierarchySafe_nil
  · intro act hact rid hrid
    rw [List.mem_singleton] at hact
    subst hact
    exact h rid hrid

lemma hierarchySafe_addSingle {guild : Guild} {bot : BotMember} {tid : Int}
    (h : ∃ r, guild.get_role tid = some r ∧ r.position < bot.top_role_position) :
    HierarchySafe guild bot [RoleAction.addRole tid] := by
  intro act hact rid hrid
  rw [List.mem_singleton] at hact
  subst hact
  simp [RoleAction.ids] at hrid
  subst hrid
  exact h

lemma hierarchySafe_addIf {guild : Guild} {bot : BotMember} {tid : Int} {cond : Prop}
    [Decidable cond]
    (h : ∃ r, guild.get_role tid = some r ∧ r.position < bot.top_role_position) :
    HierarchySafe guild bot (if cond then [] else [RoleAction.addRole tid]) := by
  split
  · exact hierarchySafe_nil
  · exact hierarchySafe_addSingle h

lemma update_level_roles_safe (bot : BotMember) (guild : Guild)
    (member_roles : List Int) (cfg : Config) (new_level : Int) :
    HierarchySafe guild bot (_update_level_roles bot guild member_roles cfg new_level) := by
  by_cases hm : bot.manage_roles
  case neg => simp [_update_level_roles, hm, hierarchySafe_nil]
  case pos =>
  cases hlook : lookupKV cfg.level_roles (toString new_level) with
  | none =>
    rw [update_shape_none hm hlook]
    split
    · refine hierarchySafe_removeIf ?_
      intro rid hrid
      obtain ⟨p, hp, h2, hmem, hr⟩ := mem_strip_list.mp hrid
      exact hr
    · exact hierarchySafe_nil
  | some tStr =>
    cases hparse : str_toInt? tStr with
    | none => simp [_update_level_roles, hm, hlook, hparse, hierarchySafe_nil]
    | some tid =>
      cases hrole : guild.get_role tid with
      | none => simp [_update_level_roles, hm, hlook, hparse, hrole, hierarchySafe_nil]
      | some tRole =>
        by_cases hpos : bot.top_role_position ≤ tRole.position
        · simp [_update_level_roles, hm, hlook, hparse, hrole, hpos, hierarchySafe_nil]
        · rw [update_shape_target hm hlook hparse hrole (not_le.mp hpos)]
          refine hierarchySafe_append (hierarchySafe_removeIf ?_)
            (hierarchySafe_addIf ⟨tRole, hrole, not_le.mp hpos⟩)
          intro rid hrid
          split at hrid
          · obtain ⟨p, hp, lvl_int, h1, h2, h3, h4, h5, hr⟩ := mem_roles_to_remove.mp hrid
            exact hr
          · simp at hrid

lemma remove_all_safe (bot : BotMember) (guild : Guild) (member_roles : List Int)
    (cfg : Config) :
    HierarchySafe guild bot (_remove_all_level_roles bot guild member_roles cfg) := by
  show HierarchySafe guild bot
    (if allHeldLevelRoles guild bot cfg.level_roles member_roles = [] then []
     else [RoleAction.removeRoles (allHeldLevelRoles guild bot cfg.level_roles member_roles)])
  refine hierarchySafe_removeIf ?_
  intro rid hrid
  obtain ⟨p, hp, h2, hmem, hr⟩ := mem_all_held.mp hrid
  exact hr

lemma correct_member_safe (bot : BotMember) (guild : Guild) (member_roles : List Int)
    (cfg : Config) (db : DBConn) (guild_id user_id : Int) :
    HierarchySafe guild bot
      (_correct_member_level_roles bot guild member_roles cfg db guild_id user_id).1 := by
  simp only [_correct_member_level_roles]
  split
  · exact remove_all_safe bot guild member_roles cfg
  · split
    · exact remove_all_safe bot guild member_roles cfg
    · split
      · exact remove_all_safe bot guild member_roles cfg
      · rename_i role_id role hrole
        split
        · exact remove_all_safe bot guild member_roles cfg
        · split
          · exact remove_all_safe bot guild member_roles cfg
          · rename_i hpos hmem
            exact hierarchySafe_append (remove_all_safe bot guild member_roles cfg)
              (hierarchySafe_addSingle ⟨role, hrole, not_le.mp hpos⟩)

/-- C4: no role-mutation call issued by reconciliation
(`_update_level_roles`), the full strip (`_remove_all_level_roles`) or the
startup correction (`_correct_member_level_roles`) ever includes a role at
or above the bot's top role: every id in every issued call resolves to a
guild role strictly below it (unresolvable or too-high roles are skipped,
never attempted). -/
theorem claim4_no_unmanageable_role (bot : BotMember) (guild : Guild)
    (member_roles : List Int) (cfg : Config) (new_level : Int) (db : DBConn)
    (guild_id user_id : Int) :
    HierarchySafe guild bot (_update_level_roles bot guild member_roles cfg new_level) ∧
    HierarchySafe guild bot (_remove_all_level_roles bot guild member_roles cfg) ∧
    HierarchySafe guild bot
      (_correct_member_level_roles bot guild member_roles cfg db guild_id user_id).1 :=
  ⟨update_level_roles_safe bot guild member_roles cfg new_level,
   remove_all_safe bot guild member_roles cfg,
   correct_member_safe bot guild member_roles cfg db guild_id user_id⟩

lemma update_shape_target_prev {bot : BotMember} {guild : Guild} {member_roles : List Int}
    {cfg : Config} {new_level : Int} {tStr : String} {tid : Int} {tRole : Role}
    (hmanage : bot.manage_roles = true)
    (hprev : cfg.remove_previous_roles = true)
    (hlook : lookupKV cfg.level_roles (toString new_level) = some tStr)
    (hparse : str_toInt? tStr = some tid)
    (hrole : guild.get_role tid = some tRole)
    (hpos : tRole.position < bot.top_role_position) :
    _update_level_roles bot guild member_roles cfg new_level =
      (if roles_to_remove guild bot cfg.level_roles member_roles new_level tid = [] then []
       else [RoleAction.removeRoles
         (roles_to_remove guild bot cfg.level_roles member_roles new_level tid)]) ++
      (if tid ∈ member_roles then [] else [RoleAction.addRole tid]) := by
  simp [_update_level_roles, hmanage, hprev, hlook, hparse, hrole, not_le.mpr hpos]

lemma update_shape_none_prev {bot : BotMember} {guild : Guild} {member_roles : List Int}
    {cfg : Config} {new_level : Int}
    (hmanage : bot.manage_roles = true)
    (hprev : cfg.remove_previous_roles = true)
    (hlook : lookupKV cfg.level_roles (toString new_level) = none) :
    _update_level_roles bot guild member_roles cfg new_level =
      (if rolesToRemoveIfNoNewRole guild bot cfg.level_roles member_roles = [] then []
       else [RoleAction.removeRoles
         (rolesToRemoveIfNoNewRole guild bot cfg.level_roles member_roles)]) := by
  simp [_update_level_roles, hmanage, hprev, hlook]

lemma lookupKV_mem {κ α : Type} [DecidableEq κ] {l : List (κ × α)} {k : κ} {v : α}
    (h : lookupKV l k = some v) : (k, v) ∈ l := by
  induction l with
  | nil => simp [lookupKV] at h
  | cons p rest ih =>
    rw [lookupKV] at h
    split at h
    · rename_i heq
      rw [Option.some.injEq] at h
      subst heq
      subst h
      simp
    · exact List.mem_cons_of_mem _ (ih h)

lemma nodup_lookupKV {κ α : Type} [DecidableEq κ] {l : List (κ × α)}
    (hnd : (l.map Prod.fst).Nodup) {k : κ} {v : α} (h : (k, v) ∈ l) :
    lookupKV l k = some v := by
  induction l with
  | nil => simp at h
  | cons p rest ih =>
    rw [List.map_cons, List.nodup_cons] at hnd
    rcases List.mem_cons.mp h with heq | hmem
    · rw [lookupKV, if_pos (by rw [← heq])]
      rw [← heq]
    · have hne : p.1 ≠ k := by
        intro hk
        exact hnd.1 (hk ▸ List.mem_map.mpr ⟨(k, v), hmem, rfl⟩)
      rw [lookupKV, if_neg hne]
      exact ih hnd.2 hmem

lemma applyRoleActions_remove_add (roles rms : List Int) (tid : Int) :
    applyRoleActions roles
      ((if rms = [] then [] else [RoleAction.removeRoles rms]) ++
       (if tid ∈ roles then [] else [RoleAction.addRole tid])) =
    (if tid ∈ roles then
       (if rms = [] then roles else roles.filter (fun r => decide (r ∉ rms)))
     else
       (if rms = [] then roles else roles.filter (fun r => decide (r ∉ rms))) ++ [tid]) := by
  by_cases hrms : rms = [] <;> by_cases htid : tid ∈ roles <;>
    simp [applyRoleActions, applyRoleAction, hrms, htid, List.mem_filter]

lemma applyRoleActions_removeIf (roles rms : List Int) :
    applyRoleActions roles (if rms = [] then [] else [RoleAction.removeRoles rms]) =
      (if rms = [] then roles else roles.filter (fun r => decide (r ∉ rms))) := by
  by_cases hrms : rms = [] <;> simp [applyRoleActions, applyRoleAction, hrms]

lemma mem_base {roles rms : List Int} {rid : Int} :
    rid ∈ (if rms = [] then roles else roles.filter (fun r => decide (r ∉ rms))) ↔
      rid ∈ roles ∧ rid ∉ rms := by
  split
  · rename_i h
    subst h
    simp
  · simp [List.mem_filter]

/-- C5 (amended): reconciliation is idempotent for well-formed maps — with
`manage_roles` held, `remove_previous_roles` on and a level-role map whose
keys parse canonically and uniquely and whose every mapped role is present
in the guild strictly below the bot's top role, one reconciliation leaves
the member with exactly the mapped role for the level (if any) among the
mapped roles, and a second identical reconciliation issues no role
mutations.  (For arbitrary maps the original claim fails: a held stale
mapped role at or above the bot's top role is skipped and kept — see the
counterexample.) -/
theorem claim5_reconcile_idempotent (bot : BotMember) (guild : Guild)
    (member_roles : List Int) (cfg : Config) (new_level : Int)
    (hmanage : bot.manage_roles = true)
    (hprev : cfg.remove_previous_roles = true)
    (hclean : CleanLevelRoles guild bot cfg.level_roles)
    (hkeys : (cfg.level_roles.map Prod.fst).Nodup) :
    ReconcileIdempotent bot guild member_roles cfg new_level := by
  unfold ReconcileIdempotent
  cases hlook : lookupKV cfg.level_roles (toString new_level) with
  | none =>
    have hshape1 := @update_shape_none_prev bot guild member_roles cfg new_level
      hmanage hprev hlook
    set rmsN := rolesToRemoveIfNoNewRole guild bot cfg.level_roles member_roles with hrmsNdef
    set roles1 := applyRoleActions member_roles
      (_update_level_roles bot guild member_roles cfg new_level) with hroles1def
    have hroles1 : roles1 = (if rmsN = [] then member_roles
        else member_roles.filter (fun r => decide (r ∉ rmsN))) := by
      rw [hroles1def, hshape1, applyRoleActions_removeIf]
    have hmem1 : ∀ rid : Int, rid ∈ roles1 ↔ rid ∈ member_roles ∧ rid ∉ rmsN := by
      intro rid
      rw [hroles1]
      exact mem_base
    refine ⟨?_, ?_, ?_⟩
    · have hshape2 := @update_shape_none_prev bot guild roles1 cfg new_level
        hmanage hprev hlook
      rw [hshape2]
      have hnil : rolesToRemoveIfNoNewRole guild bot cfg.level_roles roles1 = [] := by
        rw [List.eq_nil_iff_forall_not_mem]
        intro rid hrid
        obtain ⟨p, hp, h2, hmemr, hr⟩ := mem_strip_list.mp hrid
        have hm1 := (hmem1 rid).mp hmemr
        exact hm1.2 (mem_strip_list.mpr ⟨p, hp, h2, hm1.1, hr⟩)
      rw [hnil]
      simp
    · intro tStr tid h1 h2
      exact absurd h1 (by simp)
    · intro rid hmapped hnt
      obtain ⟨p, hp, hpr⟩ := hmapped
      obtain ⟨li, rid2, hli, hcanon, hpr2, hrEx⟩ := hclean p hp
      rw [hpr, Option.some.injEq] at hpr2
      subst hpr2
      intro hc
      have hm1 := (hmem1 rid).mp hc
      exact hm1.2 (mem_strip_list.mpr ⟨p, hp, hpr, hm1.1, hrEx⟩)
  | some tStr =>
    have hp0 : (toString new_level, tStr) ∈ cfg.level_roles := lookupKV_mem hlook
    obtain ⟨li0, tid, hli0, hcanon0, hparseT0, hrEx0⟩ := hclean _ hp0
    obtain ⟨r0, hr0, hpos0⟩ := hrEx0
    have hparseT : str_toInt? tStr = some tid := hparseT0
    have hshape1 := @update_shape_target_prev bot guild member_roles cfg new_level tStr tid r0
      hmanage hprev hlook hparseT hr0 hpos0
    set rms := roles_to_remove guild bot cfg.level_roles member_roles new_level tid with hrmsdef
    set roles1 := applyRoleActions member_roles
      (_update_level_roles bot guild member_roles cfg new_level) with hroles1def
    have hrmsne : ∀ x ∈ rms, x ≠ tid := by
      intro x hx
      obtain ⟨p, hp, lvl, h1, h2, h3, h4, h5, hr⟩ := mem_roles_to_remove.mp hx
      exact h5
    have hroles1 : roles1 = (if tid ∈ member_roles then
        (if rms = [] then member_roles else member_roles.filter (fun r => decide (r ∉ rms)))
      else
        (if rms = [] then member_roles
         else member_roles.filter (fun r => decide (r ∉ rms))) ++ [tid]) := by
      rw [hroles1def, hshape1, applyRoleActions_remove_add]
    have hfwd : ∀ rid : Int, rid ∈ roles1 → rid = tid ∨ (rid ∈ member_roles ∧ rid ∉ rms) := by
      intro rid hc
      rw [hroles1] at hc
      by_cases htid : tid ∈ member_roles
      · rw [if_pos htid] at hc
        exact Or.inr (mem_base.mp hc)
      · rw [if_neg htid] at hc
        rcases List.mem_append.mp hc with h | h
        · exact Or.inr (mem_base.mp h)
        · exact Or.inl (List.mem_singleton.mp h)
    have htid1 : tid ∈ roles1 := by
      rw [hroles1]
      by_cases htid : tid ∈ member_roles
      · rw [if_pos htid]
        exact mem_base.mpr ⟨htid, fun hc => hrmsne tid hc rfl⟩
      · rw [if_neg htid]
        exact List.mem_append.mpr (Or.inr (List.mem_singleton.mpr rfl))
    refine ⟨?_, ?_, ?_⟩
    · have hshape2 := @update_shape_target_prev bot guild roles1 cfg new_level tStr tid r0
        hmanage hprev hlook hparseT hr0 hpos0
      rw [hshape2]
      have hnil : roles_to_remove guild bot cfg.level_roles roles1 new_level tid = [] := by
        rw [List.eq_nil_iff_forall_not_mem]
        intro rid hrid
        obtain ⟨p, hp, lvl, h1, h2, h3, h4, h5, hr⟩ := mem_roles_to_remove.mp hrid
        rcases hfwd rid h4 with h | h
        · exact h5 h
        · exact h.2 (mem_roles_to_remove.mpr ⟨p, hp, lvl, h1, h2, h3, h.1, h5, hr⟩)
      rw [hnil]
      simp [htid1]
    · intro tStr' tid' h1 h2
      rw [Option.some.injEq] at h1
      subst h1
      rw [hparseT, Option.some.injEq] at h2
      subst h2
      exact htid1
    · intro rid hmapped hnt
      obtain ⟨p, hp, hpr⟩ := hmapped
      have hridtid : rid ≠ tid := by
        intro h
        exact hnt tStr rfl (by rw [hparseT, h])
      obtain ⟨li, rid2, hli, hcanon, hpr2, hrEx⟩ := hclean p hp
      rw [hpr, Option.some.injEq] at hpr2
      subst hpr2
      by_cases hlvl : li = new_level
      · exfalso
        have hp1 : p.1 = toString new_level := by rw [← hcanon, hlvl]
        have hlk2 : lookupKV cfg.level_roles p.1 = some p.2 :=
          nodup_lookupKV hkeys (by rw [Prod.mk.eta]; exact hp)
        rw [hp1, hlook, Option.some.injEq] at hlk2
        apply hridtid
        have hridparse : str_toInt? tStr = some rid := by rw [hlk2]; exact hpr
        rw [hparseT, Option.some.injEq] at hridparse
        exact hridparse.symm
      · intro hc
        rcases hfwd rid hc with h | h
        · exact hridtid h
        · exact h.2 (mem_roles_to_remove.mpr ⟨p, hp, li, hli, hpr, hlvl, h.1, hridtid, hrEx⟩)

lemma boost_foldl_spec (boosts : List (String × ℚ)) :
    ∀ (l : List Int) (b0 : ℚ), 1 ≤ b0 →
      b0 ≤ l.foldl (boostStep boosts) b0 ∧
      (∀ v ∈ l.filterMap (fun rid => lookupKV boosts (toString rid)),
        v ≤ l.foldl (boostStep boosts) b0) ∧
      (l.foldl (boostStep boosts) b0 = b0 ∨
        l.foldl (boostStep boosts) b0 ∈
          l.filterMap (fun rid => lookupKV boosts (toString rid))) := by
  intro l
  induction l with
  | nil =>
    intro b0 hb0
    refine ⟨le_refl _, ?_, Or.inl rfl⟩
    intro v hv
    simp at hv
  | cons rid l ih =>
    intro b0 hb0
    cases hl : lookupKV boosts (toString rid) with
    | none =>
      have hfm : List.filterMap (fun rid => lookupKV boosts (toString rid)) (rid :: l) =
          List.filterMap (fun rid => lookupKV boosts (toString rid)) l := by simp [hl]
      have hstep : boostStep boosts b0 rid = b0 := by simp [boostStep, hl]
      rw [List.foldl_cons, hfm, hstep]
      exact ih b0 hb0
    | some v =>
      have hfm : List.filterMap (fun rid => lookupKV boosts (toString rid)) (rid :: l) =
          v :: List.filterMap (fun rid => lookupKV boosts (toString rid)) l := by simp [hl]
      have hstep : boostStep boosts b0 rid = (if v ≠ 0 then max b0 v else b0) := by
        simp [boostStep, hl]
      have hb0b1 : b0 ≤ boostStep boosts b0 rid := by
        rw [hstep]
        split
        · exact le_max_left _ _
        · exact le_refl _
      have hb1 : 1 ≤ boostStep boosts b0 rid := le_trans hb0 hb0b1
      obtain ⟨ihle, ihub, ihat⟩ := ih (boostStep boosts b0 rid) hb1
      rw [List.foldl_cons, hfm]
      refine ⟨le_trans hb0b1 ihle, ?_, ?_⟩
      · intro v' hv'
        rcases List.mem_cons.mp hv' with rfl | h
        · by_cases hz : v' = 0
          · exact le_trans (hz.le.trans zero_le_one) (le_trans hb1 ihle)
          · refine le_trans ?_ ihle
            rw [hstep, if_pos hz]
            exact le_max_right _ _
        · exact ihub v' h
      · rcases ihat with h | h
        · by_cases hz : v = 0
          · have hbeq : boostStep boosts b0 rid = b0 := by
              rw [hstep, if_neg (by simpa using hz)]
            exact Or.inl (h.trans hbeq)
          · have hbeq : boostStep boosts b0 rid = max b0 v := by rw [hstep, if_pos hz]
            rcases max_choice b0 v with hm | hm
            · exact Or.inl (h.trans (hbeq.trans hm))
            · refine Or.inr ?_
              rw [h.trans (hbeq.trans hm)]
              exact List.mem_cons_self _ _
        · exact Or.inr (List.mem_cons_of_mem _ h)

/-- C9: the effective XP multiplier equals the maximum of 1.0 and every
configured multiplier applicable to the member (own id and each held role
id): it is never below 1.0, a configured boost below 1 cannot reduce granted
XP, and boosts do not stack — only the largest applies. -/
theorem claim9_boost_max (boosts : List (String × ℚ)) (member_id : Int)
    (member_role_ids : List Int) : BoostIsMax boosts member_id member_role_ids := by
  unfold BoostIsMax
  cases hu : lookupKV boosts (toString member_id) with
  | none =>
    have hg : _get_xp_boost boosts member_id member_role_ids =
        List.foldl (boostStep boosts) 1 member_role_ids := by
      simp [_get_xp_boost, hu]
    have hfm : applicableBoosts boosts member_id member_role_ids =
        List.filterMap (fun rid => lookupKV boosts (toString rid)) member_role_ids := by
      simp [applicableBoosts, hu]
    rw [hg, hfm]
    exact boost_foldl_spec boosts member_role_ids 1 (le_refl 1)
  | some v =>
    have hg : _get_xp_boost boosts member_id member_role_ids =
        List.foldl (boostStep boosts) (if v ≠ 0 then max 1 v else 1) member_role_ids := by
      simp [_get_xp_boost, hu]
    have hfm : applicableBoosts boosts member_id member_role_ids =
        v :: List.filterMap (fun rid => lookupKV boosts (toString rid)) member_role_ids := by
      simp [applicableBoosts, hu]
    rw [hg, hfm]
    set u0 := (if v ≠ 0 then max 1 v else 1 : ℚ) with hu0def
    have hu0 : 1 ≤ u0 := by
      rw [hu0def]
      split
      · exact le_max_left _ _
      · exact le_refl _
    obtain ⟨hle, hub, hat⟩ := boost_foldl_spec boosts member_role_ids u0 hu0
    refine ⟨le_trans hu0 hle, ?_, ?_⟩
    · intro v' hv'
      rcases List.mem_cons.mp hv' with rfl | h
      · by_cases hz : v' = 0
        · exact le_trans (hz.le.trans zero_le_one) (le_trans hu0 hle)
        · refine le_trans ?_ hle
          rw [hu0def, if_pos hz]
          exact le_max_right _ _
      · exact hub v' h
    · rcases hat with h | h
      · by_cases hz : v = 0
        · have hu0eq : u0 = 1 := by rw [hu0def, if_neg (by simpa using hz)]
          exact Or.inl (h.trans hu0eq)
        · have hu0eq : u0 = max 1 v := by rw [hu0def, if_pos hz]
          rcases max_choice 1 v with hm | hm
          · exact Or.inl (h.trans (hu0eq.trans hm))
          · refine Or.inr ?_
            rw [h.trans (hu0eq.trans hm)]
            exact List.mem_cons_self _ _
      · exact Or.inr (List.mem_cons_of_mem _ h)

theorem claim9_witness : BoostIsMax [("2", 2), ("7", (3 : ℚ) / 2)] 2 [7] :=
  claim9_boost_max [("2", 2), ("7", (3 : ℚ) / 2)] 2 [7]

/-- C8: a message in a blacklisted channel grants nothing: `_grant_xp` is
never invoked, the ledger is untouched and no cooldown timestamp (not even
the guild's empty cooldown dict) is recorded, because the blacklist check
precedes both the cooldown bookkeeping and the grant. -/
theorem claim8_blacklist_no_effect (cfg : Config) (cds : Cooldowns) (db : DBConn)
    (msg : OnMessageCtx) (hbl : msg.channel_id ∈ cfg.blacklisted_channels) :
    on_message cfg cds db msg = (cds, db, false) := by
  simp [on_message, hbl]

theorem claim3_witness :
    scenarioBot.manage_roles = true ∧
    scenarioCfg.remove_previous_roles = true ∧
    lookupKV scenarioCfg.level_roles (toString (2 : Int)) = some "20" ∧
    str_toInt? "20" = some 20 ∧
    scenarioGuild.get_role 20 = some ⟨20, 2⟩ ∧
    (Role.mk 20 2).position < scenarioBot.top_role_position ∧
    TwoCallShape scenarioBot scenarioGuild [10] scenarioCfg 2 20 ∧
    _update_level_roles scenarioBot scenarioGuild [10] scenarioCfg 2 =
      [RoleAction.removeRoles [10], RoleAction.addRole 20] ∧
    (_recalculate_level 50).1 = 0 ∧ (_recalculate_level 400).1 = 2 :=
  ⟨rfl, rfl, by decide, by decide, by decide, by decide,
   claim3_remove_then_add scenarioBot scenarioGuild [10] scenarioCfg 2 "20" 20 ⟨20, 2⟩
     rfl rfl (by decide) (by decide) (by decide) (by decide),
   by decide, by decide, by decide⟩

theorem claim4_witness :
    RoleAction.removeRoles [10] ∈ _update_level_roles scenarioBot scenarioGuild [10] scenarioCfg 2 ∧
    (10 : Int) ∈ (RoleAction.removeRoles [10]).ids ∧
    ∃ r, scenarioGuild.get_role 10 = some r ∧ r.position < scenarioBot.top_role_position :=
  ⟨by decide, by decide,
   (claim4_no_unmanageable_role scenarioBot scenarioGuild [10] scenarioCfg 2 DBConn.absent 1 2).1
     (RoleAction.removeRoles [10]) (by decide) 10 (by decide)⟩

theorem claim5_witness :
    CleanLevelRoles scenarioGuild scenarioBot scenarioCfg.level_roles ∧
    (scenarioCfg.level_roles.map Prod.fst).Nodup ∧
    ReconcileIdempotent scenarioBot scenarioGuild [10] scenarioCfg 2 := by
  have hclean : CleanLevelRoles scenarioGuild scenarioBot scenarioCfg.level_roles := by
    intro p hp
    rcases List.mem_cons.mp hp with rfl | hp
    · exact ⟨0, 10, by decide, by decide, by decide, ⟨10, 1⟩, by decide, by decide⟩
    · rcases List.mem_cons.mp hp with rfl | hp
      · exact ⟨2, 20, by decide, by decide, by decide, ⟨20, 2⟩, by decide, by decide⟩
      · exact absurd hp (by simp)
  exact ⟨hclean, by decide,
    claim5_reconcile_idempotent scenarioBot scenarioGuild [10] scenarioCfg 2 rfl rfl hclean
      (by decide)⟩

/-- C5 counterexample: with level-role map `{"0": "10", "5": "99"}`, role 99
sitting at position 100 — at or above the bot's top role (position 50) — and
a member holding role 99, reconciling to level 0 skips removing the stale
mapped role 99 (the hierarchy guard at leveling.py lines 302–306) while
still adding role 10: the member keeps another mapped role, so the claim's
"holds none of the other mapped roles" fails for this map — reconciliation
as claimed for arbitrary level-role maps is false. -/
theorem claim5_counterexample :
    ¬ ReconcileIdempotent cex5Bot cex5Guild [99] cex5Cfg 0 := by
  intro h
  have hnt : ∀ tStr : String,
      lookupKV cex5Cfg.level_roles (toString (0 : Int)) = some tStr →
      str_toInt? tStr ≠ some 99 := by
    intro tStr hlk
    have hcomp : lookupKV cex5Cfg.level_roles (toString (0 : Int)) = some "10" := by decide
    rw [hcomp, Option.some.injEq] at hlk
    subst hlk
    decide
  have h99 := h.2.2 99 ⟨("5", "99"), by decide, by decide⟩ hnt
  exact h99 (by decide)

theorem claim8_witness :
    (5 : Int) ∈ scenarioCfgBL.blacklisted_channels ∧
    on_message scenarioCfgBL [] (DBConn.ok []) scenarioMsg = ([], DBConn.ok [], false) :=
  ⟨by decide, claim8_blacklist_no_effect scenarioCfgBL [] (DBConn.ok []) scenarioMsg (by decide)⟩

end Leveling
